import Mathlib

set_option maxRecDepth 4096

deriving instance DecidableEq for Except

/-!
Verification of the moonraker core: a shallow embedding of the sandboxed
execution environment (`src/environment.rs`), the step ledger and parser
(`src/repl.rs`), the orchestration loop (`src/rlm.rs`) and its driver
(`src/bin/moonraker.rs`).

External collaborators are abstracted exactly at the boundaries the spec
draws: the Lua interpreter's effect on the capturing print sink is a
`LuaOutcome` value, the Rig model providers are generation functions, and
the tiktoken tokenizer is a `Tokenizer` record of its contract
(`loadOk` models whether `p50k_base()` succeeds, `decode` is fallible).
Everything on the Rust side of those boundaries is translated directly.
-/

/-- Maximum tokens allowed for cell output in context (`repl.rs:10`). -/
def MAX_OUTPUT_TOKENS : Nat := 200

/-- The literal marker appended to truncated output (`repl.rs:153`,
`format!("{decoded}\n[truncated]")`). -/
def truncationMarker : String := "\n[truncated]"

/-- Model bridge configuration (`environment.rs:10`): provider plus model
name (and API key for OpenRouter). -/
inductive LlmClient where
  | ollama (model : String)
  | openrouter (model apiKey : String)
  deriving DecidableEq

/-- The sandboxed Lua execution environment (`environment.rs:32`). The live
`mlua::Lua` interpreter is external; the embedding tracks what the claims
depend on: the configured model bridge, the initial `context` binding
(every call site relevant to the claims passes a string), and the output
buffer the capturing print sink writes into. -/
structure Environment where
  client : LlmClient
  context : String
  buffer : String
  deriving DecidableEq

/-- `Environment::new` (`environment.rs:38`): registers the custom
functions, binds `context`, and starts with an empty output buffer. The
`mlua` failure path of the constructor is not modelled (it is
configuration-independent). -/
def Environment.new (initContext : String) (client : LlmClient) : Environment :=
  { client := client, context := initContext, buffer := "" }

/-- Abstract behaviour of `lua.load(code).exec()` (`environment.rs:66`) for
one evaluation: the sequence of payloads the script passes to the captured
`print` sink, each payload already tab-joined per call
(`environment.rs:104`), or a syntax/runtime error message. The error case
carries the payloads printed before the failure. -/
inductive LuaOutcome where
  | ok (prints : List String)
  | err (prints : List String) (msg : String)
  deriving DecidableEq

/-- One invocation of the capturing print sink (`environment.rs:101`):
multiple print calls within one evaluation are newline-separated. -/
def appendPrint (buffer payload : String) : String :=
  if buffer.isEmpty then payload else buffer ++ "\n" ++ payload

/-- The buffer contents after a sequence of print invocations. -/
def runPrints (prints : List String) (buffer : String) : String :=
  prints.foldl appendPrint buffer

/-- `Environment::eval` (`environment.rs:61`): clear the output buffer,
execute the code (abstracted by `outcome`), read the buffer; an empty
buffer yields `None`, a failing execution propagates the error. -/
def Environment.eval (env : Environment) (code : String) (outcome : LuaOutcome) :
    Environment × Except String (Option String) :=
  match code, outcome with
  | _, .err prints msg => ({ env with buffer := runPrints prints "" }, .error msg)
  | _, .ok prints =>
      let output := runPrints prints ""
      ({ env with buffer := output },
        .ok (if output.isEmpty then none else some output))

/-- Contract of the external tiktoken collaborator (spec section 6):
`loadOk` models whether `p50k_base()` returns `Ok` (`repl.rs:148`),
`encode` models `encode_with_special_tokens`, and `decode` models the
fallible `decode` (`repl.rs:152`). -/
structure Tokenizer where
  loadOk : Bool
  encode : String → List Nat
  decode : List Nat → Option String

/-- The output truncation performed by `Repl::eval` on a successful
evaluation with output (`repl.rs:146`-`162`): best-effort truncation to
`MAX_OUTPUT_TOKENS` tokens with the literal marker appended; if the
tokenizer fails to load or the truncated tokens fail to decode, the full
untruncated output is kept. -/
def truncateStored (tk : Tokenizer) (result : String) : String :=
  if tk.loadOk then
    let tokens := tk.encode result
    if tokens.length > MAX_OUTPUT_TOKENS then
      match tk.decode (tokens.take MAX_OUTPUT_TOKENS) with
      | some decoded => decoded ++ truncationMarker
      | none => result
    else result
  else result

/-- One unit of agent work (`repl.rs:13`): the `Cell` struct with fields
`comment`, `code`, `output` and `final` (serialized name of `r#final`). -/
structure Cell where
  comment : String
  code : String
  output : Option String
  final : Bool
  deriving DecidableEq

/-- Fallback cell used to express `entries.last().unwrap()`; it is only
read when the entry list is non-empty. -/
def emptyCell : Cell :=
  { comment := "", code := "", output := none, final := false }

/-- The step ledger (`repl.rs:83`): task prompt, append-only entries, and
its exclusively owned environment. -/
structure Repl where
  prompt : String
  entries : List Cell
  environment : Environment
  deriving DecidableEq

/-- `Repl::new` (`repl.rs:128`): empty entry list over a fresh environment;
the `_model` argument is unused in the source and kept for fidelity. -/
def Repl.new (prompt : String) (initContext : String) (model : String)
    (client : LlmClient) : Repl :=
  { prompt := prompt, entries := [], environment := Environment.new initContext client }

/-- `Repl::eval` (`repl.rs:144`): evaluate the code in the environment,
truncate successful output to `MAX_OUTPUT_TOKENS`, store a formatted
error string on failure, and append the new cell with `final := false`. -/
def Repl.eval (r : Repl) (tk : Tokenizer) (outcome : LuaOutcome)
    (comment code : String) : Repl :=
  let evalRes := r.environment.eval code outcome
  let output : Option String :=
    match evalRes.2 with
    | .ok (some result) => some (truncateStored tk result)
    | .ok none => none
    | .error e => some ("Execution error: " ++ e)
  { r with
      environment := evalRes.1,
      entries := r.entries ++
        [{ comment := comment, code := code, output := output, final := false }] }

/-- `Repl::snapshot` (`repl.rs:178`): same prompt, a copy of the entries,
and a brand-new environment with empty context and the hard-coded client
`LlmClient::Ollama("qwen3:30b".to_string())` (`repl.rs:182`). -/
def Repl.snapshot (r : Repl) : Repl :=
  { prompt := r.prompt, entries := r.entries,
    environment := Environment.new "" (LlmClient.ollama "qwen3:30b") }

/-- JSON values as produced by `serde_json` parsing. The numeric value of
a number never matters to the `Cell` shape (a number in any `Cell` field
is a type error), so its lexeme is kept verbatim. -/
inductive Json where
  | null
  | bool (b : Bool)
  | num (lexeme : String)
  | str (s : String)
  | arr (elems : List Json)
  | obj (fields : List (String × Json))

/-- The double-quote character. -/
def quoteChar : Char := Char.ofNat 34

/-- The opening-brace character. -/
def lbraceChar : Char := Char.ofNat 123

/-- The closing-brace character. -/
def rbraceChar : Char := Char.ofNat 125

/-- JSON insignificant whitespace. -/
def isJsonWs (c : Char) : Bool :=
  c = ' ' || c = '\t' || c = '\n' || c = '\r'

/-- Skip insignificant whitespace. -/
def skipWs (s : List Char) : List Char := s.dropWhile isJsonWs

/-- Value of one hexadecimal digit. -/
def hexVal (c : Char) : Option Nat :=
  if 48 ≤ c.toNat ∧ c.toNat ≤ 57 then some (c.toNat - 48)
  else if 97 ≤ c.toNat ∧ c.toNat ≤ 102 then some (c.toNat - 87)
  else if 65 ≤ c.toNat ∧ c.toNat ≤ 70 then some (c.toNat - 55)
  else none

/-- Four hexadecimal digits, as used by a `\u` escape. -/
def hex4 : List Char → Option (Nat × List Char)
  | a :: b :: c :: d :: rest => do
      let va ← hexVal a
      let vb ← hexVal b
      let vc ← hexVal c
      let vd ← hexVal d
      some (((va * 16 + vb) * 16 + vc) * 16 + vd, rest)
  | _ => none

/-- Body of a JSON string after its opening quote: returns the decoded
characters and the input remaining after the closing quote.
Escapes, unescaped-control-character rejection and surrogate-pair
handling follow `serde_json` (lone surrogates are rejected). Fuel bounds
the recursion; one unit is spent per consumed character, so the caller's
fuel (input length plus slack) never runs out on real input. -/
def parseStringBody : Nat → List Char → Option (List Char × List Char)
  | 0, _ => none
  | _ + 1, [] => none
  | fuel + 1, c :: rest =>
    if c = quoteChar then some ([], rest)
    else if c = '\\' then
      match rest with
      | [] => none
      | e :: rest2 =>
        if e = quoteChar then
          (parseStringBody fuel rest2).map (fun p => (quoteChar :: p.1, p.2))
        else if e = '\\' then
          (parseStringBody fuel rest2).map (fun p => ('\\' :: p.1, p.2))
        else if e = '/' then
          (parseStringBody fuel rest2).map (fun p => ('/' :: p.1, p.2))
        else if e = 'b' then
          (parseStringBody fuel rest2).map (fun p => (Char.ofNat 8 :: p.1, p.2))
        else if e = 'f' then
          (parseStringBody fuel rest2).map (fun p => (Char.ofNat 12 :: p.1, p.2))
        else if e = 'n' then
          (parseStringBody fuel rest2).map (fun p => ('\n' :: p.1, p.2))
        else if e = 'r' then
          (parseStringBody fuel rest2).map (fun p => ('\r' :: p.1, p.2))
        else if e = 't' then
          (parseStringBody fuel rest2).map (fun p => ('\t' :: p.1, p.2))
        else if e = 'u' then
          match hex4 rest2 with
          | none => none
          | some (v, rest3) =>
            if 0xD800 ≤ v ∧ v ≤ 0xDBFF then
              match rest3 with
              | '\\' :: 'u' :: rest4 =>
                match hex4 rest4 with
                | some (w, rest5) =>
                  if 0xDC00 ≤ w ∧ w ≤ 0xDFFF then
                    (parseStringBody fuel rest5).map
                      (fun p =>
                        (Char.ofNat (0x10000 + (v - 0xD800) * 0x400 + (w - 0xDC00)) :: p.1,
                         p.2))
                  else none
                | none => none
              | _ => none
            else if 0xDC00 ≤ v ∧ v ≤ 0xDFFF then none
            else (parseStringBody fuel rest3).map (fun p => (Char.ofNat v :: p.1, p.2))
        else none
    else if c.toNat < 32 then none
    else (parseStringBody fuel rest).map (fun p => (c :: p.1, p.2))

/-- Longest leading run of decimal digits, with the remainder. -/
def digitSpan (s : List Char) : List Char × List Char :=
  (s.takeWhile Char.isDigit, s.dropWhile Char.isDigit)

/-- Lex a JSON number per the grammar
`-? (0 | [1-9][0-9]*) (. [0-9]+)? ([eE][+-]?[0-9]+)?`. -/
def parseNumber (s : List Char) : Option (Json × List Char) :=
  let (negChars, s1) :=
    match s with
    | '-' :: rest => (['-'], rest)
    | _ => (([] : List Char), s)
  match s1 with
  | [] => none
  | c :: _ =>
    if ¬ c.isDigit then none
    else
      let (intPart, s2) := digitSpan s1
      if intPart.length > 1 ∧ intPart.headD '0' = '0' then none
      else
        let fracRes : Option (List Char × List Char) :=
          match s2 with
          | '.' :: rest =>
            let (ds, s3) := digitSpan rest
            if ds = [] then none else some ('.' :: ds, s3)
          | _ => some ([], s2)
        match fracRes with
        | none => none
        | some (fracPart, s3) =>
          let expRes : Option (List Char × List Char) :=
            match s3 with
            | e :: rest =>
              if e = 'e' ∨ e = 'E' then
                match rest with
                | sgn :: rest2 =>
                  if sgn = '+' ∨ sgn = '-' then
                    let (ds, s4) := digitSpan rest2
                    if ds = [] then none else some (e :: sgn :: ds, s4)
                  else
                    let (ds, s4) := digitSpan rest
                    if ds = [] then none else some (e :: ds, s4)
                | [] => none
              else some ([], s3)
            | [] => some ([], s3)
          match expRes with
          | none => none
          | some (expPart, s4) =>
            some (.num (String.mk (negChars ++ intPart ++ fracPart ++ expPart)), s4)

mutual

/-- Recursive-descent JSON value parser. Fuel bounds the recursion; every
recursive call follows the consumption of at least one input character,
so fuel `length + slack` suffices for any input. -/
def parseValue : Nat → List Char → Option (Json × List Char)
  | 0, _ => none
  | fuel + 1, s =>
    match skipWs s with
    | 'n' :: 'u' :: 'l' :: 'l' :: rest => some (.null, rest)
    | 't' :: 'r' :: 'u' :: 'e' :: rest => some (.bool true, rest)
    | 'f' :: 'a' :: 'l' :: 's' :: 'e' :: rest => some (.bool false, rest)
    | c :: rest =>
      if c = quoteChar then
        (parseStringBody (fuel + 1) rest).map (fun p => (Json.str (String.mk p.1), p.2))
      else if c = lbraceChar then
        parseObjMembers fuel (skipWs rest) [] true
      else if c = '[' then
        parseArrElems fuel (skipWs rest) [] true
      else
        parseNumber (c :: rest)
    | [] => none

/-- Members of a JSON object, after the opening brace (or a separating
comma); `isFirst` allows the immediate closing brace of an empty object. -/
def parseObjMembers :
    Nat → List Char → List (String × Json) → Bool → Option (Json × List Char)
  | 0, _, _, _ => none
  | fuel + 1, s, acc, isFirst =>
    match s with
    | [] => none
    | c :: rest =>
      if isFirst ∧ c = rbraceChar then some (.obj acc.reverse, rest)
      else if c = quoteChar then
        match parseStringBody (fuel + 1) rest with
        | none => none
        | some (keyChars, afterKey) =>
          match skipWs afterKey with
          | ':' :: afterColon =>
            match parseValue fuel afterColon with
            | none => none
            | some (v, afterVal) =>
              let acc2 := (String.mk keyChars, v) :: acc
              match skipWs afterVal with
              | ',' :: afterComma => parseObjMembers fuel (skipWs afterComma) acc2 false
              | d :: afterClose =>
                if d = rbraceChar then some (.obj acc2.reverse, afterClose) else none
              | [] => none
          | _ => none
      else none

/-- Elements of a JSON array, after the opening bracket (or a separating
comma); `isFirst` allows the immediate closing bracket of an empty array. -/
def parseArrElems : Nat → List Char → List Json → Bool → Option (Json × List Char)
  | 0, _, _, _ => none
  | fuel + 1, s, acc, isFirst =>
    match s with
    | [] => none
    | c :: rest =>
      if isFirst ∧ c = ']' then some (.arr acc.reverse, rest)
      else
        match parseValue fuel (c :: rest) with
        | none => none
        | some (v, afterVal) =>
          let acc2 := v :: acc
          match skipWs afterVal with
          | ',' :: afterComma => parseArrElems fuel (skipWs afterComma) acc2 false
          | ']' :: afterClose => some (.arr acc2.reverse, afterClose)
          | _ => none

end

/-- `serde_json` document parsing: one JSON value, then only trailing
whitespace to the end of input. -/
def jsonParse (text : String) : Option Json :=
  let s := text.toList
  match parseValue (s.length + 16) s with
  | none => none
  | some (j, rest) => if skipWs rest = [] then some j else none

/-- First binding of a key in an object's field list. -/
def lookupField (fields : List (String × Json)) (key : String) : Option Json :=
  match fields with
  | [] => none
  | (k, v) :: rest => if k = key then some v else lookupField rest key

/-- Number of bindings of a key in an object's field list; the derived
serde deserializer rejects a duplicated known field. -/
def countField (fields : List (String × Json)) (key : String) : Nat :=
  (fields.filter (fun kv => kv.1 == key)).length

/-- A required `String` field of `Cell` (`comment`, `code`). -/
def readStringField : Option Json → Option String
  | some (.str s) => some s
  | _ => none

/-- The `output: Option<String>` field: missing or `null` is `None`, a
string is `Some`, anything else is a type error. -/
def readOutputField : Option Json → Option (Option String)
  | none => some none
  | some .null => some none
  | some (.str s) => some (some s)
  | some _ => none

/-- The `final: bool` field with `#[serde(default)]`: missing is `false`,
a boolean is itself, anything else (including `null`) is a type error. -/
def readFinalField : Option Json → Option Bool
  | none => some false
  | some (.bool b) => some b
  | some _ => none

/-- Deserialization of `Cell` from a parsed JSON value, following the
derived serde implementation: an object with required string fields
`comment` and `code`, optional `output`, defaulted `final`; unknown
fields are ignored, duplicated known fields are an error. (The positional
array encoding serde also admits for structs is not modelled; the claims
all concern the field form.) -/
def cellFromObj (fields : List (String × Json)) : Option Cell :=
  if countField fields "comment" ≤ 1 ∧ countField fields "code" ≤ 1 ∧
      countField fields "output" ≤ 1 ∧ countField fields "final" ≤ 1 then
    match readStringField (lookupField fields "comment"),
          readStringField (lookupField fields "code"),
          readOutputField (lookupField fields "output"),
          readFinalField (lookupField fields "final") with
    | some comment, some code, some output, some finalFlag =>
        some { comment := comment, code := code, output := output, final := finalFlag }
    | _, _, _, _ => none
  else none

/-- Dispatch on the document shape: only an object deserializes. -/
def cellFromJson : Json → Option Cell
  | .obj fields => cellFromObj fields
  | _ => none

/-- The structured branch of `Cell::parse` (`repl.rs:33`):
`serde_json::from_str::<Cell>(text)`, succeeding only when the text is a
valid JSON document that deserializes to the `Cell` shape. -/
def jsonCellOfText (text : String) : Option Cell :=
  match jsonParse text with
  | none => none
  | some j => cellFromJson j

/-- Index of the first occurrence of `pat` in a character list. -/
def listFind? (pat : List Char) : List Char → Option Nat
  | [] => if pat = [] then some 0 else none
  | c :: rest =>
    if pat.isPrefixOf (c :: rest) then some 0
    else (listFind? pat rest).map (· + 1)

/-- First matching region of the regex `(?s)<tag>(.*?)</tag>`
(`repl.rs:38`-`40`): the text between the first opening tag and the first
closing tag after it (non-greedy, spanning newlines). When any opening
tag has a following closing tag, so does the first opening tag, hence
this is the leftmost regex match. -/
def extractRegion (openTag closeTag text : String) : Option String :=
  let t := text.toList
  let op := openTag.toList
  let cl := closeTag.toList
  match listFind? op t with
  | none => none
  | some i =>
    let afterOpen := t.drop (i + op.length)
    match listFind? cl afterOpen with
    | none => none
    | some j => some (String.mk (afterOpen.take j))

/-- Leading and trailing whitespace removal, mirroring Rust `str::trim`
on the modelled whitespace characters. -/
def trimChars (l : List Char) : List Char :=
  ((l.dropWhile Char.isWhitespace).reverse.dropWhile Char.isWhitespace).reverse

/-- String-level trim. -/
def strTrim (s : String) : String := String.mk (trimChars s.toList)

/-- ASCII lower-casing, mirroring `str::to_lowercase` on the inputs the
parser compares against (`"true"` and `"yes"`). -/
def strToLower (s : String) : String := String.mk (s.toList.map Char.toLower)

/-- The optional `<final>` region (`repl.rs:57`-`64`): present with a
trimmed, lower-cased value of `"true"` or `"yes"` means final; any other
value, or absence, means not final. -/
def finalFlagOf (text : String) : Bool :=
  match extractRegion "<final>" "</final>" text with
  | some v =>
    let value := strToLower (strTrim v)
    value == "true" || value == "yes"
  | none => false

/-- The tagged branch of `Cell::parse` (`repl.rs:37`-`80`): mandatory
`<comment>` and `<code>` regions (absence or emptiness is an error naming
the field), optional `<final>` region, `output = None`. -/
def taggedParse (text : String) : Except String Cell :=
  match extractRegion "<comment>" "</comment>" text with
  | none => Except.error "Failed to parse <comment> tag from response"
  | some rawComment =>
    match extractRegion "<code>" "</code>" text with
    | none => Except.error "Failed to parse <code> tag from response"
    | some rawCode =>
      if strTrim rawComment = "" then Except.error "Comment tag is empty"
      else if strTrim rawCode = "" then Except.error "Code tag is empty"
      else Except.ok
        { comment := strTrim rawComment, code := strTrim rawCode,
          output := none, final := finalFlagOf text }

/-- `Cell::parse` (`repl.rs:29`): try the structured (JSON) path first,
fall back to the tagged path. -/
def Cell.parse (text : String) : Except String Cell :=
  match jsonCellOfText text with
  | some cell => Except.ok cell
  | none => taggedParse text

/-- The recursive-language-model orchestrator (`rlm.rs:145`): it owns the
live Repl. The external `LmProvider` and the Lua interpreter are
abstracted as the `generate` function and the `LuaOutcome` passed to each
step. -/
structure Rlm where
  repl : Repl
  deriving DecidableEq

/-- `Rlm::new` (`rlm.rs:158`). -/
def Rlm.new (prompt context model : String) (client : LlmClient) : Rlm :=
  { repl := Repl.new prompt context model client }

/-- `Rlm::step` (`rlm.rs:172`): snapshot the Repl, generate a cell from
the model, replay the generated cell's comment and code through
`Repl::eval`, and return a clone of the last stored entry with the
generation-time final flag restored on the returned copy
(`rlm.rs:189`-`190`). -/
def Rlm.step (rlm : Rlm) (generate : Repl → Except String Cell)
    (tk : Tokenizer) (outcome : LuaOutcome) : Except String (Rlm × Cell) :=
  match generate rlm.repl.snapshot with
  | .error e => .error e
  | .ok cell =>
      .ok ({ repl := rlm.repl.eval tk outcome cell.comment cell.code },
        { (rlm.repl.eval tk outcome cell.comment cell.code).entries.getLastD emptyCell with
            final := cell.final })

/-- `RlmIterator` state (`rlm.rs:212`): the remaining iteration budget. -/
structure RlmIterState where
  remaining : Nat
  deriving DecidableEq

/-- `RlmIterator::next` (`rlm.rs:225`): yields nothing once the budget is
exhausted, otherwise consumes one unit of budget and performs one step. -/
def RlmIterState.next (s : RlmIterState) (rlm : Rlm)
    (generate : Repl → Except String Cell) (tk : Tokenizer) (outcome : LuaOutcome) :
    Option (Except String (Rlm × Cell)) × RlmIterState :=
  if s.remaining = 0 then (none, s)
  else (some (rlm.step generate tk outcome), { remaining := s.remaining - 1 })

/-- Observable result of the driver loop in `main`
(`moonraker.rs:354`-`404`): how many rounds ran, whether a final cell was
seen, and whether a round failed (which aborts the whole run). -/
structure LoopResult where
  iterations : Nat
  isFinal : Bool
  failed : Option String
  rlm : Rlm

/-- The driver loop (`moonraker.rs:358`-`401`): while the iterator yields,
count the round; a generation/parse failure aborts the loop with an
error, and a yielded cell with the final flag set breaks out. The fuel
argument is the iterator's remaining budget; `generate i` and
`outcomes i` abstract the external model call and the Lua execution of
round `i`. -/
def driverLoop (generate : Nat → Repl → Except String Cell) (tk : Tokenizer)
    (outcomes : Nat → LuaOutcome) : Nat → Nat → Rlm → LoopResult
  | 0, iters, rlm => { iterations := iters, isFinal := false, failed := none, rlm := rlm }
  | fuel + 1, iters, rlm =>
      match rlm.step (generate iters) tk (outcomes iters) with
      | .error e =>
          { iterations := iters + 1, isFinal := false, failed := some e, rlm := rlm }
      | .ok (rlm2, cell) =>
          if cell.final then
            { iterations := iters + 1, isFinal := true, failed := none, rlm := rlm2 }
          else driverLoop generate tk outcomes fuel (iters + 1) rlm2

/-- The budget-exhaustion report guard of `main` (`moonraker.rs:403`):
`!is_final && iteration >= args.max_iterations`. -/
def reportsBudgetExhausted (res : LoopResult) (maxIterations : Nat) : Bool :=
  !res.isFinal && decide (maxIterations ≤ res.iterations)

/-- Helper: the cell appended by `Repl::eval` is the last entry. -/
theorem Repl.eval_entries (r : Repl) (tk : Tokenizer) (outcome : LuaOutcome)
    (comment code : String) :
    ∃ out, (r.eval tk outcome comment code).entries =
      r.entries ++ [{ comment := comment, code := code, output := out, final := false }] := by
  unfold Repl.eval
  exact ⟨_, rfl⟩

/-- Helper: the entry stored by `Repl::eval` always has `final = false`. -/
theorem Repl.eval_getLastD_final (r : Repl) (tk : Tokenizer) (outcome : LuaOutcome)
    (comment code : String) :
    ((r.eval tk outcome comment code).entries.getLastD emptyCell).final = false := by
  obtain ⟨out, h⟩ := r.eval_entries tk outcome comment code
  rw [h, List.getLastD_concat]

/-- Helper: on a successful generation, `Rlm::step` replays the generated
cell through `Repl::eval` and restores the final flag on the returned
copy only. -/
theorem Rlm.step_ok (rlm : Rlm) (generate : Repl → Except String Cell)
    (tk : Tokenizer) (outcome : LuaOutcome) (c : Cell)
    (hc : generate rlm.repl.snapshot = Except.ok c) :
    rlm.step generate tk outcome = Except.ok
      ({ repl := rlm.repl.eval tk outcome c.comment c.code },
        { (rlm.repl.eval tk outcome c.comment c.code).entries.getLastD emptyCell with
            final := c.final }) := by
  unfold Rlm.step
  rw [hc]

/-- Claim C3 counterexample: a Repl created with an OpenRouter client
snapshots to a Repl whose environment carries the hard-coded default
Ollama client, not the original's model bridge. -/
theorem c3_snapshot_bridge_counterexample :
    ((Repl.new "p" "ctx" "m" (LlmClient.openrouter "mdl" "key")).snapshot).environment.client =
        LlmClient.ollama "qwen3:30b"
    ∧ (Repl.new "p" "ctx" "m" (LlmClient.openrouter "mdl" "key")).environment.client =
        LlmClient.openrouter "mdl" "key"
    ∧ LlmClient.ollama "qwen3:30b" ≠ LlmClient.openrouter "mdl" "key" :=
  ⟨rfl, rfl, by decide⟩

/-- Claim C3 (amended): `snapshot()` returns a value whose `task_prompt`
equals the original's prompt and whose step sequence is a copy of the
original's entries, backed by a fresh Environment with empty context and
the fixed default model bridge `Ollama("qwen3:30b")`, regardless of the
original's LlmClient. -/
theorem c3_snapshot_amended (r : Repl) :
    r.snapshot.prompt = r.prompt
    ∧ r.snapshot.entries = r.entries
    ∧ r.snapshot.environment = Environment.new "" (LlmClient.ollama "qwen3:30b")
    ∧ r.snapshot.environment.context = ""
    ∧ r.snapshot.environment.buffer = "" :=
  ⟨rfl, rfl, rfl, rfl, rfl⟩

/-- Claim C6: every `Environment::eval` call clears the output buffer at
the start (its result is independent of the incoming buffer), and a
successful call returns `None` exactly when the buffer ends empty — never
`Some("")`; in particular code producing no output yields `None`. -/
theorem c6_eval_buffer_contract (env : Environment) (code : String) (outcome : LuaOutcome) :
    Environment.eval env code outcome = Environment.eval { env with buffer := "" } code outcome
    ∧ (∀ o, (Environment.eval env code outcome).2 = Except.ok o →
        o ≠ some "" ∧ (o = none ↔ (Environment.eval env code outcome).1.buffer = ""))
    ∧ (outcome = LuaOutcome.ok [] → (Environment.eval env code outcome).2 = Except.ok none) := by
  cases outcome with
  | err prints msg =>
    refine ⟨rfl, ?_, ?_⟩
    · intro o h
      simp [Environment.eval] at h
    · intro h
      simp at h
  | ok prints =>
    refine ⟨rfl, ?_, ?_⟩
    · intro o h
      simp only [Environment.eval] at h ⊢
      by_cases hE : (runPrints prints "").isEmpty
      · rw [if_pos hE] at h
        obtain rfl : (none : Option String) = o := by simpa using h
        simp [(String.isEmpty_iff _).mp hE]
      · rw [if_neg hE] at h
        obtain rfl : some (runPrints prints "") = o := by simpa using h
        have hne : runPrints prints "" ≠ "" := fun hc => hE (by rw [hc]; rfl)
        simp [hne]
    · intro h
      cases h
      simp [Environment.eval, runPrints]
      rfl

/-- Claim C6 witness: evaluating code that produces no output yields
`Ok(None)`. -/
theorem c6_eval_buffer_contract_witness :
    (Environment.eval (Environment.new "c" (LlmClient.ollama "m")) "x = 5"
        (LuaOutcome.ok [])).2 = Except.ok none :=
  (c6_eval_buffer_contract (Environment.new "c" (LlmClient.ollama "m")) "x = 5"
      (LuaOutcome.ok [])).2.2 rfl

/-- Claim C7: when evaluation fails, `Repl::eval` still appends a new
step whose output is the formatted error string (prefix
`"Execution error: "`), with `final = false`; the error is not propagated
(`Repl::eval` is total), so the loop can continue. -/
theorem c7_error_step_recorded (r : Repl) (tk : Tokenizer) (prints : List String)
    (msg comment code : String) :
    (r.eval tk (.err prints msg) comment code).entries =
        r.entries ++
          [{ comment := comment, code := code,
             output := some ("Execution error: " ++ msg), final := false }]
    ∧ ((r.eval tk (.err prints msg) comment code).entries.getLastD emptyCell).output =
        some ("Execution error: " ++ msg)
    ∧ (∃ detail,
        ((r.eval tk (.err prints msg) comment code).entries.getLastD emptyCell).output =
          some ("Execution error: " ++ detail))
    ∧ ((r.eval tk (.err prints msg) comment code).entries.getLastD emptyCell).final = false
    ∧ (r.eval tk (.err prints msg) comment code).entries.length = r.entries.length + 1 := by
  have hent : (r.eval tk (.err prints msg) comment code).entries =
      r.entries ++
        [{ comment := comment, code := code,
           output := some ("Execution error: " ++ msg), final := false }] := rfl
  refine ⟨hent, ?_, ?_, ?_, ?_⟩
  · rw [hent, List.getLastD_concat]
  · exact ⟨msg, by rw [hent, List.getLastD_concat]⟩
  · rw [hent, List.getLastD_concat]
  · rw [hent]
    simp

/-- Helper: a successfully deserialized `output` field is `None` exactly
when the field is absent or `null`. -/
theorem readOutputField_none_iff (oj : Option Json) (o : Option String)
    (h : readOutputField oj = some o) :
    o = none ↔ (oj = none ∨ oj = some Json.null) := by
  cases oj with
  | none =>
    simp only [readOutputField, Option.some.injEq] at h
    simp [← h]
  | some j =>
    cases j with
    | null =>
      simp only [readOutputField, Option.some.injEq] at h
      simp [← h]
    | str s =>
      simp only [readOutputField, Option.some.injEq] at h
      simp [← h]
    | bool b => simp [readOutputField] at h
    | num l => simp [readOutputField] at h
    | arr es => simp [readOutputField] at h
    | obj fs => simp [readOutputField] at h

/-- Claim C1 counterexample: a JSON document matching the Cell shape that
supplies `"output": "o"` parses via the structured path into a Step whose
output is `Some "o"`, not `None`. -/
theorem c1_structured_output_counterexample :
    Cell.parse "\x7b\"comment\": \"c\", \"code\": \"x\", \"output\": \"o\", \"final\": false\x7d" =
      Except.ok { comment := "c", code := "x", output := some "o", final := false }
    ∧ (Cell.mk "c" "x" (some "o") false).output ≠ none :=
  ⟨by decide, by decide⟩

/-- Claim C1 (amended): for every input text on which the structured
(JSON) path succeeds, `parse` returns exactly the deserialized Step — the
supplied `output` value is preserved, being `None` exactly when the
input's `output` field is absent or `null` (it is not forced to `None`). -/
theorem c1_structured_path_amended :
    (∀ text cell, jsonCellOfText text = some cell → Cell.parse text = Except.ok cell)
    ∧ (∀ fields cell, cellFromJson (Json.obj fields) = some cell →
        (cell.output = none ↔
          (lookupField fields "output" = none ∨
            lookupField fields "output" = some Json.null))) := by
  constructor
  · intro text cell h
    unfold Cell.parse
    rw [h]
  · intro fields cell h
    have hobj : cellFromJson (Json.obj fields) = cellFromObj fields := rfl
    rw [hobj] at h
    unfold cellFromObj at h
    split at h
    · cases h1 : readStringField (lookupField fields "comment") with
      | none => rw [h1] at h; simp at h
      | some a =>
        cases h2 : readStringField (lookupField fields "code") with
        | none => rw [h1, h2] at h; simp at h
        | some b =>
          cases h3 : readOutputField (lookupField fields "output") with
          | none => rw [h1, h2, h3] at h; simp at h
          | some o =>
            cases h4 : readFinalField (lookupField fields "final") with
            | none => rw [h1, h2, h3, h4] at h; simp at h
            | some f =>
              rw [h1, h2, h3, h4] at h
              simp only [Option.some.injEq] at h
              rw [← h]
              exact readOutputField_none_iff _ _ h3
    · exact absurd h (by simp)

/-- Claim C1 witness: a concrete JSON document without an `output` field
parses via the structured path with `output = None`. -/
theorem c1_structured_path_amended_witness :
    Cell.parse "\x7b\"comment\": \"a\", \"code\": \"b\"\x7d" =
      Except.ok { comment := "a", code := "b", output := none, final := false } :=
  c1_structured_path_amended.1 _ _ (by decide)

/-- Claim C5 counterexample: the structured (JSON) path performs no
emptiness validation, so a JSON document with empty `comment` and `code`
parses successfully into a Step with empty intent and code. -/
theorem c5_empty_fields_counterexample :
    Cell.parse "\x7b\"comment\": \"\", \"code\": \"\"\x7d" =
      Except.ok { comment := "", code := "", output := none, final := false }
    ∧ (Cell.mk "" "" none false).comment = ""
    ∧ (Cell.mk "" "" none false).code = "" :=
  ⟨by decide, rfl, rfl⟩

/-- Claim C5 (amended): every Step produced by a successful parse via the
tagged path has a non-empty intent (comment) and a non-empty code string;
the structured (JSON) path performs no such validation. -/
theorem c5_tagged_nonempty_amended (text : String) (cell : Cell)
    (hjson : jsonCellOfText text = none) (h : Cell.parse text = Except.ok cell) :
    cell.comment ≠ "" ∧ cell.code ≠ "" := by
  have hpt : Cell.parse text = taggedParse text := by
    unfold Cell.parse
    rw [hjson]
  rw [hpt] at h
  unfold taggedParse at h
  cases hcm : extractRegion "<comment>" "</comment>" text with
  | none => rw [hcm] at h; simp at h
  | some rc =>
    rw [hcm] at h
    cases hcd : extractRegion "<code>" "</code>" text with
    | none => rw [hcd] at h; simp at h
    | some rk =>
      rw [hcd] at h
      dsimp only at h
      by_cases h1 : strTrim rc = ""
      · rw [if_pos h1] at h; simp at h
      · rw [if_neg h1] at h
        by_cases h2 : strTrim rk = ""
        · rw [if_pos h2] at h; simp at h
        · rw [if_neg h2] at h
          simp only [Except.ok.injEq] at h
          rw [← h]
          exact ⟨h1, h2⟩

/-- Claim C5 witness: a concrete tagged response parses into a Step with
non-empty comment and code. -/
theorem c5_tagged_nonempty_amended_witness :
    ("a" : String) ≠ "" ∧ ("b" : String) ≠ "" :=
  c5_tagged_nonempty_amended "<comment>a</comment><code>b</code>"
    { comment := "a", code := "b", output := none, final := false }
    (by decide) (by decide)

/-- Claim C2 counterexample: when the model generates a cell with
`final = true`, the entry stored in the ledger after the round has
`final = false` (only the returned copy carries the generation-time
flag), so the stored entry's flag does not equal the generation-time
flag. -/
theorem c2_stored_final_counterexample :
    (Rlm.new "p" "ctx" "m" (LlmClient.ollama "q")).step
        (fun _ => Except.ok { comment := "c", code := "x", output := none, final := true })
        { loadOk := false, encode := fun _ => [], decode := fun _ => none }
        (LuaOutcome.ok []) =
      Except.ok
        ({ repl :=
            { prompt := "p",
              entries := [{ comment := "c", code := "x", output := none, final := false }],
              environment := { client := LlmClient.ollama "q", context := "ctx", buffer := "" } } },
          { comment := "c", code := "x", output := none, final := true })
    ∧ (Cell.mk "c" "x" none false).final = false
    ∧ (Cell.mk "c" "x" none true).final = true :=
  ⟨rfl, rfl, rfl⟩

/-- Claim C2 (amended): in every round, the generated Step is not
executed in-place: its comment and code are replayed through the ledger's
execute operation; the Step returned to the caller carries the
generation-time final flag and the stored entry's other fields, while the
entry stored in the ledger (the last entry after the round) always has
`final = false`. -/
theorem c2_step_final_amended (rlm : Rlm) (generate : Repl → Except String Cell)
    (tk : Tokenizer) (outcome : LuaOutcome) (cell : Cell) (rlm2 : Rlm) (executed : Cell)
    (hgen : generate rlm.repl.snapshot = Except.ok cell)
    (hstep : rlm.step generate tk outcome = Except.ok (rlm2, executed)) :
    executed.final = cell.final
    ∧ (rlm2.repl.entries.getLastD emptyCell).final = false
    ∧ rlm2.repl = rlm.repl.eval tk outcome cell.comment cell.code
    ∧ executed.comment = (rlm2.repl.entries.getLastD emptyCell).comment
    ∧ executed.code = (rlm2.repl.entries.getLastD emptyCell).code
    ∧ executed.output = (rlm2.repl.entries.getLastD emptyCell).output := by
  rw [rlm.step_ok generate tk outcome cell hgen] at hstep
  simp only [Except.ok.injEq, Prod.mk.injEq] at hstep
  obtain ⟨h1, h2⟩ := hstep
  subst h1
  subst h2
  exact ⟨rfl, Repl.eval_getLastD_final _ _ _ _ _, rfl, rfl, rfl, rfl⟩

/-- Claim C2 witness: the amended statement at a concrete one-round run
whose model declares `final = true`. -/
theorem c2_step_final_amended_witness :
    (Cell.mk "c" "x" none true).final = (Cell.mk "c" "x" none true).final
    ∧ ((Rlm.mk
          { prompt := "p",
            entries := [{ comment := "c", code := "x", output := none, final := false }],
            environment :=
              { client := LlmClient.ollama "q", context := "ctx",
                buffer := "" } }).repl.entries.getLastD emptyCell).final = false := by
  have h := c2_step_final_amended (Rlm.new "p" "ctx" "m" (LlmClient.ollama "q"))
    (fun _ => Except.ok { comment := "c", code := "x", output := none, final := true })
    { loadOk := false, encode := fun _ => [], decode := fun _ => none }
    (LuaOutcome.ok [])
    { comment := "c", code := "x", output := none, final := true }
    (Rlm.mk
      { prompt := "p",
        entries := [{ comment := "c", code := "x", output := none, final := false }],
        environment := { client := LlmClient.ollama "q", context := "ctx", buffer := "" } })
    { comment := "c", code := "x", output := none, final := true }
    rfl rfl
  exact ⟨h.1, h.2.1⟩

/-- Claim C8: on the tagged path (structured path failed), absence of the
comment or code region is a parse failure naming the missing field, and
emptiness (after trimming) is a failure naming the empty field; the final
region is optional, and the parsed Step has `output = None` and
`is_final` true exactly when a final region is present with trimmed,
lower-cased value `"true"` or `"yes"`. -/
theorem c8_tagged_parse_contract (text : String) (hjson : jsonCellOfText text = none) :
    (extractRegion "<comment>" "</comment>" text = none →
      Cell.parse text = Except.error "Failed to parse <comment> tag from response")
    ∧ (∀ rc, extractRegion "<comment>" "</comment>" text = some rc →
        extractRegion "<code>" "</code>" text = none →
        Cell.parse text = Except.error "Failed to parse <code> tag from response")
    ∧ (∀ rc rk, extractRegion "<comment>" "</comment>" text = some rc →
        extractRegion "<code>" "</code>" text = some rk → strTrim rc = "" →
        Cell.parse text = Except.error "Comment tag is empty")
    ∧ (∀ rc rk, extractRegion "<comment>" "</comment>" text = some rc →
        extractRegion "<code>" "</code>" text = some rk → strTrim rc ≠ "" → strTrim rk = "" →
        Cell.parse text = Except.error "Code tag is empty")
    ∧ (∀ rc rk, extractRegion "<comment>" "</comment>" text = some rc →
        extractRegion "<code>" "</code>" text = some rk → strTrim rc ≠ "" → strTrim rk ≠ "" →
        Cell.parse text = Except.ok
          { comment := strTrim rc, code := strTrim rk,
            output := none, final := finalFlagOf text })
    ∧ (finalFlagOf text = true ↔
        ∃ v, extractRegion "<final>" "</final>" text = some v ∧
          (strToLower (strTrim v) = "true" ∨ strToLower (strTrim v) = "yes")) := by
  have hpt : Cell.parse text = taggedParse text := by
    unfold Cell.parse
    rw [hjson]
  refine ⟨?_, ?_, ?_, ?_, ?_, ?_⟩
  · intro hcm
    rw [hpt]
    unfold taggedParse
    rw [hcm]
  · intro rc hcm hcd
    rw [hpt]
    unfold taggedParse
    rw [hcm, hcd]
  · intro rc rk hcm hcd h1
    rw [hpt]
    unfold taggedParse
    rw [hcm, hcd]
    dsimp only
    rw [if_pos h1]
  · intro rc rk hcm hcd h1 h2
    rw [hpt]
    unfold taggedParse
    rw [hcm, hcd]
    dsimp only
    rw [if_neg h1, if_pos h2]
  · intro rc rk hcm hcd h1 h2
    rw [hpt]
    unfold taggedParse
    rw [hcm, hcd]
    dsimp only
    rw [if_neg h1, if_neg h2]
  · cases hf : extractRegion "<final>" "</final>" text with
    | none => simp [finalFlagOf, hf]
    | some v =>
      simp [finalFlagOf, hf, Bool.or_eq_true, beq_iff_eq]

/-- Claim C8 witness: a concrete tagged response with all three regions
parses into a final Step with `output = None`. -/
theorem c8_tagged_parse_contract_witness :
    Cell.parse "<comment>a</comment><code>b</code><final>yes</final>" =
      Except.ok { comment := "a", code := "b", output := none, final := true } := by
  have h := (c8_tagged_parse_contract
      "<comment>a</comment><code>b</code><final>yes</final>" (by decide)).2.2.2.2.1
    "a" "b" (by decide) (by decide) (by decide) (by decide)
  exact h

/-- Helper: on a successful evaluation with non-empty captured output,
the stored output of the appended entry is the truncation of the
captured output. -/
theorem Repl.eval_ok_output (r : Repl) (tk : Tokenizer) (prints : List String)
    (comment code : String) (result : String)
    (hres : runPrints prints "" = result) (hne : result ≠ "") :
    ((r.eval tk (.ok prints) comment code).entries.getLastD emptyCell).output =
      some (truncateStored tk result) := by
  have hE : result.isEmpty = false := by
    cases hb : result.isEmpty with
    | false => rfl
    | true => exact absurd ((String.isEmpty_iff _).mp hb) hne
  have hent : (r.eval tk (.ok prints) comment code).entries =
      r.entries ++
        [{ comment := comment, code := code,
           output := some (truncateStored tk result), final := false }] := by
    unfold Repl.eval Environment.eval
    dsimp only
    rw [hres, hE]
    simp
  rw [hent, List.getLastD_concat]

/-- Helper: when the tokenizer loads and the encoding fits the budget,
truncation is the identity. -/
theorem truncateStored_within (tk : Tokenizer) (result : String)
    (hload : tk.loadOk = true) (hlen : (tk.encode result).length ≤ MAX_OUTPUT_TOKENS) :
    truncateStored tk result = result := by
  unfold truncateStored
  rw [hload, if_pos rfl, if_neg (by omega)]

/-- Helper: when the tokenizer loads, the encoding exceeds the budget and
the truncated tokens decode, the stored text is the decoding plus the
marker. -/
theorem truncateStored_over (tk : Tokenizer) (result decoded : String)
    (hload : tk.loadOk = true) (hlen : (tk.encode result).length > MAX_OUTPUT_TOKENS)
    (hdec : tk.decode ((tk.encode result).take MAX_OUTPUT_TOKENS) = some decoded) :
    truncateStored tk result = decoded ++ truncationMarker := by
  unfold truncateStored
  rw [hload, if_pos rfl, if_pos hlen, hdec]

/-- Claim C4 (amended): for every evaluation succeeding with output whose
encoding exceeds the fixed 200-token budget (and whose truncated tokens
decode), the stored Step output is the decoding of the first 200 tokens
followed by the literal truncation marker — a string ending in
`"[truncated]"`, though not necessarily strictly shorter than the
untruncated output (the marker adds 12 characters); outputs within the
budget are stored unchanged, with no marker appended. -/
theorem c4_truncation_amended (r : Repl) (tk : Tokenizer) (prints : List String)
    (comment code : String) (result : String)
    (hres : runPrints prints "" = result) (hne : result ≠ "") (hload : tk.loadOk = true) :
    ((tk.encode result).length > MAX_OUTPUT_TOKENS →
      ∀ decoded, tk.decode ((tk.encode result).take MAX_OUTPUT_TOKENS) = some decoded →
        ((r.eval tk (.ok prints) comment code).entries.getLastD emptyCell).output =
            some (decoded ++ truncationMarker)
        ∧ ∃ pre, decoded ++ truncationMarker = pre ++ "[truncated]")
    ∧ ((tk.encode result).length ≤ MAX_OUTPUT_TOKENS →
        ((r.eval tk (.ok prints) comment code).entries.getLastD emptyCell).output =
          some result) := by
  constructor
  · intro hlen decoded hdec
    constructor
    · rw [r.eval_ok_output tk prints comment code result hres hne,
        truncateStored_over tk result decoded hload hlen hdec]
    · refine ⟨decoded ++ "\n", ?_⟩
      rw [String.append_assoc]
      have hmk : ("\n" : String) ++ "[truncated]" = truncationMarker := by decide
      rw [hmk]
  · intro hlen
    rw [r.eval_ok_output tk prints comment code result hres hne,
      truncateStored_within tk result hload hlen]

/-- Claim C4 witness: a short output is stored unchanged. -/
theorem c4_truncation_amended_witness :
    (((Repl.new "p" "" "m" (LlmClient.ollama "q")).eval
        { loadOk := true, encode := fun s => s.toList.map Char.toNat,
          decode := fun ts => some (String.mk (ts.map Char.ofNat)) }
        (LuaOutcome.ok ["hi"]) "c" "k").entries.getLastD emptyCell).output = some "hi" :=
  (c4_truncation_amended (Repl.new "p" "" "m" (LlmClient.ollama "q"))
      { loadOk := true, encode := fun s => s.toList.map Char.toNat,
        decode := fun ts => some (String.mk (ts.map Char.ofNat)) }
      ["hi"] "c" "k" "hi" rfl (by decide) rfl).2 (by decide)

/-- Claim C4 counterexample: with a per-character tokenizer (faithful to
the contract of spec section 6; the real p50k BPE exhibits the same
behaviour whenever fewer characters than the marker's length are cut), an
output of 201 tokens is stored as the 200-token prefix plus the marker —
a string that is strictly LONGER than the untruncated output, refuting
the strictly-shorter part of the claim, while still ending in the
marker. -/
theorem c4_truncation_longer_counterexample :
    (((Repl.new "p" "" "m" (LlmClient.ollama "q")).eval
        { loadOk := true, encode := fun s => s.toList.map Char.toNat,
          decode := fun ts => some (String.mk (ts.map Char.ofNat)) }
        (LuaOutcome.ok [String.mk (List.replicate 201 'a')]) "c" "k").entries.getLastD
      emptyCell).output =
      some (String.mk (List.replicate 200 'a') ++ "\n[truncated]")
    ∧ (({ loadOk := true, encode := fun s => s.toList.map Char.toNat,
          decode := fun ts => some (String.mk (ts.map Char.ofNat)) } : Tokenizer).encode
        (String.mk (List.replicate 201 'a'))).length > MAX_OUTPUT_TOKENS
    ∧ (String.mk (List.replicate 200 'a') ++ "\n[truncated]").length >
        (String.mk (List.replicate 201 'a')).length
    ∧ String.mk (List.replicate 200 'a') ++ "\n[truncated]" =
        (String.mk (List.replicate 200 'a') ++ "\n") ++ "[truncated]" := by
  refine ⟨by decide, by decide, by decide, by decide⟩

/-- Claim C10: output truncation in `Repl::eval` is best-effort — if the
tokenizer fails to load, or the truncated token sequence fails to decode,
the full untruncated output is stored unchanged (no marker appended),
even when its encoding exceeds the 200-token budget. -/
theorem c10_truncation_best_effort (r : Repl) (tk : Tokenizer) (prints : List String)
    (comment code : String) (result : String)
    (hres : runPrints prints "" = result) (hne : result ≠ "") :
    (tk.loadOk = false →
      ((r.eval tk (.ok prints) comment code).entries.getLastD emptyCell).output =
        some result)
    ∧ (tk.loadOk = true → (tk.encode result).length > MAX_OUTPUT_TOKENS →
        tk.decode ((tk.encode result).take MAX_OUTPUT_TOKENS) = none →
        ((r.eval tk (.ok prints) comment code).entries.getLastD emptyCell).output =
          some result) := by
  constructor
  · intro hload
    rw [r.eval_ok_output tk prints comment code result hres hne]
    unfold truncateStored
    rw [hload]
    simp
  · intro hload hlen hdec
    rw [r.eval_ok_output tk prints comment code result hres hne]
    unfold truncateStored
    rw [hload, if_pos rfl, if_pos hlen, hdec]

/-- Claim C10 witness: a tokenizer that fails to load leaves an output of
201 tokens stored unchanged, exceeding the budget with no marker. -/
theorem c10_truncation_best_effort_witness :
    (((Repl.new "p" "" "m" (LlmClient.ollama "q")).eval
        { loadOk := false, encode := fun _ => List.replicate 201 0,
          decode := fun _ => none }
        (LuaOutcome.ok ["hi"]) "c" "k").entries.getLastD emptyCell).output = some "hi"
    ∧ (({ loadOk := false, encode := fun _ => List.replicate 201 0,
          decode := fun _ => none } : Tokenizer).encode "hi").length > MAX_OUTPUT_TOKENS := by
  refine ⟨(c10_truncation_best_effort (Repl.new "p" "" "m" (LlmClient.ollama "q"))
      { loadOk := false, encode := fun _ => List.replicate 201 0, decode := fun _ => none }
      ["hi"] "c" "k" "hi" rfl (by decide)).1 rfl, by decide⟩

/-- Helper: the driver loop performs at most `fuel` further rounds. -/
theorem driverLoop_iterations_le (generate : Nat → Repl → Except String Cell)
    (tk : Tokenizer) (outcomes : Nat → LuaOutcome) :
    ∀ (fuel iters : Nat) (rlm : Rlm),
      (driverLoop generate tk outcomes fuel iters rlm).iterations ≤ iters + fuel := by
  intro fuel
  induction fuel with
  | zero =>
    intro iters rlm
    simp [driverLoop]
  | succ n ih =>
    intro iters rlm
    rw [driverLoop]
    cases hstep : rlm.step (generate iters) tk (outcomes iters) with
    | error e => simp
    | ok p =>
      obtain ⟨rlm2, cell⟩ := p
      by_cases hf : cell.final = true
      · simp [hf]
      · rw [Bool.not_eq_true] at hf
        simp only [hf, Bool.false_eq_true, if_false]
        have := ih (iters + 1) rlm2
        omega

/-- Helper: with a model that always generates successfully and never
sets the final flag, the driver loop uses its entire budget and neither
completes nor fails. -/
theorem driverLoop_never_final (generate : Nat → Repl → Except String Cell)
    (tk : Tokenizer) (outcomes : Nat → LuaOutcome) (F : Nat → Bool)
    (hgen : ∀ i r, ∃ c, generate i r = Except.ok c ∧ c.final = F i)
    (hF : ∀ j, F j = false) :
    ∀ (fuel iters : Nat) (rlm : Rlm),
      (driverLoop generate tk outcomes fuel iters rlm).iterations = iters + fuel
      ∧ (driverLoop generate tk outcomes fuel iters rlm).isFinal = false
      ∧ (driverLoop generate tk outcomes fuel iters rlm).failed = none := by
  intro fuel
  induction fuel with
  | zero =>
    intro iters rlm
    simp [driverLoop]
  | succ n ih =>
    intro iters rlm
    obtain ⟨c, hc, hcf⟩ := hgen iters rlm.repl.snapshot
    have hstep := rlm.step_ok (generate iters) tk (outcomes iters) c hc
    rw [driverLoop, hstep]
    dsimp only
    rw [hcf, hF iters]
    simp only [Bool.false_eq_true, if_false]
    have := ih (iters + 1) ({ repl := rlm.repl.eval tk (outcomes iters) c.comment c.code })
    refine ⟨?_, this.2⟩
    rw [this.1]
    omega

/-- Helper: the driver loop stops at the first round whose generated cell
carries the final flag. -/
theorem driverLoop_first_final (generate : Nat → Repl → Except String Cell)
    (tk : Tokenizer) (outcomes : Nat → LuaOutcome) (F : Nat → Bool)
    (hgen : ∀ i r, ∃ c, generate i r = Except.ok c ∧ c.final = F i) :
    ∀ (fuel iters : Nat) (rlm : Rlm) (k : Nat), k < fuel →
      (∀ j, j < k → F (iters + j) = false) → F (iters + k) = true →
      (driverLoop generate tk outcomes fuel iters rlm).iterations = iters + k + 1
      ∧ (driverLoop generate tk outcomes fuel iters rlm).isFinal = true
      ∧ (driverLoop generate tk outcomes fuel iters rlm).failed = none := by
  intro fuel
  induction fuel with
  | zero =>
    intro iters rlm k hk
    omega
  | succ n ih =>
    intro iters rlm k hk hprev hkT
    obtain ⟨c, hc, hcf⟩ := hgen iters rlm.repl.snapshot
    have hstep := rlm.step_ok (generate iters) tk (outcomes iters) c hc
    rw [driverLoop, hstep]
    dsimp only
    rw [hcf]
    cases k with
    | zero =>
      rw [show iters + 0 = iters from rfl] at hkT
      rw [hkT]
      simp
    | succ k' =>
      have h0 : F iters = false := by
        have := hprev 0 (Nat.succ_pos k')
        rwa [Nat.add_zero] at this
      rw [h0]
      simp only [Bool.false_eq_true, if_false]
      have hrec := ih (iters + 1)
        ({ repl := rlm.repl.eval tk (outcomes iters) c.comment c.code }) k'
        (by omega)
        (fun j hj => by
          have := hprev (j + 1) (by omega)
          rwa [show iters + (j + 1) = iters + 1 + j by omega] at this)
        (by
          have := hkT
          rwa [show iters + (k' + 1) = iters + 1 + k' by omega] at this)
      refine ⟨?_, hrec.2⟩
      rw [hrec.1]
      omega

/-- Claim C9: the iterator yields nothing once the budget is exhausted
and the driver performs at most `N` rounds; with a model that always
generates successfully with final flags `F`: if `F` is never true the run
performs exactly `N` rounds, completes nothing, fails nothing, and
triggers the budget-exhaustion report; and if `F k` is the first true
flag with `k < N`, the run stops early after exactly `k + 1` rounds with
the completion flag set. -/
theorem c9_iteration_budget (generate : Nat → Repl → Except String Cell)
    (tk : Tokenizer) (outcomes : Nat → LuaOutcome) (F : Nat → Bool) (rlm : Rlm) (N : Nat)
    (hgen : ∀ i r, ∃ c, generate i r = Except.ok c ∧ c.final = F i) :
    RlmIterState.next { remaining := 0 } rlm (generate 0) tk (outcomes 0) =
        (none, { remaining := 0 })
    ∧ (driverLoop generate tk outcomes N 0 rlm).iterations ≤ N
    ∧ ((∀ j, F j = false) →
        (driverLoop generate tk outcomes N 0 rlm).iterations = N
        ∧ (driverLoop generate tk outcomes N 0 rlm).isFinal = false
        ∧ (driverLoop generate tk outcomes N 0 rlm).failed = none
        ∧ reportsBudgetExhausted (driverLoop generate tk outcomes N 0 rlm) N = true)
    ∧ (∀ k, k < N → (∀ j, j < k → F j = false) → F k = true →
        (driverLoop generate tk outcomes N 0 rlm).iterations = k + 1
        ∧ (driverLoop generate tk outcomes N 0 rlm).isFinal = true) := by
  refine ⟨rfl, ?_, ?_, ?_⟩
  · have := driverLoop_iterations_le generate tk outcomes N 0 rlm
    omega
  · intro hF
    have h := driverLoop_never_final generate tk outcomes F hgen hF N 0 rlm
    refine ⟨by rw [h.1]; omega, h.2.1, h.2.2, ?_⟩
    unfold reportsBudgetExhausted
    rw [h.1, h.2.1]
    simp
  · intro k hk hprev hkT
    have h := driverLoop_first_final generate tk outcomes F hgen N 0 rlm k hk
      (fun j hj => by simpa using hprev j hj) (by simpa using hkT)
    exact ⟨by rw [h.1]; omega, h.2.1⟩

/-- Claim C9 witness: a two-round budget with a model that never sets the
final flag runs exactly two rounds without completing. -/
theorem c9_iteration_budget_witness :
    (driverLoop (fun _ _ => Except.ok { comment := "c", code := "x", output := none, final := false })
        { loadOk := false, encode := fun _ => [], decode := fun _ => none }
        (fun _ => LuaOutcome.ok []) 2 0
        (Rlm.new "p" "ctx" "m" (LlmClient.ollama "q"))).iterations = 2
    ∧ (driverLoop (fun _ _ => Except.ok { comment := "c", code := "x", output := none, final := false })
        { loadOk := false, encode := fun _ => [], decode := fun _ => none }
        (fun _ => LuaOutcome.ok []) 2 0
        (Rlm.new "p" "ctx" "m" (LlmClient.ollama "q"))).isFinal = false := by
  have h := (c9_iteration_budget
      (fun _ _ => Except.ok { comment := "c", code := "x", output := none, final := false })
      { loadOk := false, encode := fun _ => [], decode := fun _ => none }
      (fun _ => LuaOutcome.ok []) (fun _ => false)
      (Rlm.new "p" "ctx" "m" (LlmClient.ollama "q")) 2
      (fun i r =>
        ⟨{ comment := "c", code := "x", output := none, final := false }, rfl, rfl⟩)).2.2.1
    (fun j => rfl)
  exact ⟨h.1, h.2.1⟩
